import Mathlib

/-!
Verification of the LSP protocol client runtime of the pkm-cli repository.

The embedding models the wire codec, the response reader, the request
writer and the client facade of src/lsp (runner_standard.rs, request.rs,
response.rs, mod.rs) at the byte level.  Strings on the wire are lists of
bytes (`List Nat`); the header machinery of the protocol is ASCII, so byte
operations coincide with Rust's char operations on the inputs considered
here (Rust's `read_line` additionally validates UTF-8, which never fails
on ASCII).  Machine integers are `Nat` with explicit reduction modulo
2 ^ 32 where the source uses `AtomicU32`.
-/

namespace PKM

/-- Bytes of an ASCII string literal.  All literals used in the model are
ASCII, hence `Char.toNat` of each character is its UTF-8 byte. -/
def strB (s : String) : List Nat :=
  s.data.map Char.toNat

/-- ASCII whitespace, the fragment of Rust `char::is_whitespace` relevant
to byte streams considered here. -/
def isWSB (b : Nat) : Bool :=
  b == 9 || b == 10 || b == 11 || b == 12 || b == 13 || b == 32

/-- ASCII decimal digit. -/
def isDigitB (b : Nat) : Bool :=
  48 ≤ b && b ≤ 57

/-- Rust `str::trim_start` on bytes. -/
def trimLeftB (s : List Nat) : List Nat :=
  s.dropWhile isWSB

/-- Rust `str::trim_end` on bytes, written recursively so that proofs can
follow the list structure. -/
def trimRightB : List Nat → List Nat
  | [] => []
  | b :: rest =>
    match trimRightB rest with
    | [] => if isWSB b then [] else [b]
    | r => b :: r

/-- Rust `str::trim` on bytes. -/
def trimB (s : List Nat) : List Nat :=
  trimLeftB (trimRightB s)

/-- Rust `str::to_lowercase` restricted to ASCII bytes. -/
def toLowerB (s : List Nat) : List Nat :=
  s.map fun b => if 65 ≤ b && b ≤ 90 then b + 32 else b

/-- Decimal digits, most significant first, with a structural fuel so that
the kernel can evaluate the definition; the fuel argument strictly
dominates the number, so `natDigits` below never exhausts it. -/
def natDigitsAux : Nat → Nat → List Nat
  | 0, _ => []
  | fuel + 1, n =>
    if n < 10 then [48 + n]
    else natDigitsAux fuel (n / 10) ++ [48 + n % 10]

/-- Decimal digits of `n`, most significant first: the bytes produced by
Rust's `Display` for an unsigned integer. -/
def natDigits (n : Nat) : List Nat :=
  natDigitsAux (n + 1) n

/-- One step of decimal accumulation. -/
def digitStep (a b : Nat) : Nat := 10 * a + (b - 48)

/-- Parse a nonempty all-digit byte string as a `Nat`. -/
def parseDigits (s : List Nat) : Option Nat :=
  if !s.isEmpty && s.all isDigitB then some (s.foldl digitStep 0) else none

/-- Rust `str::parse::<usize>`: an optional leading plus sign followed by
at least one decimal digit.  (Overflow of `usize` is not modelled; the
values arising here are small.) -/
def parseUsize (s : List Nat) : Option Nat :=
  match s with
  | [] => parseDigits []
  | b :: rest => if b = 43 then parseDigits rest else parseDigits (b :: rest)

/-- `pkm::lsp::Error` (src/lsp/error.rs).  Error payloads are carried as
message bytes; `SerializationError` covers `serde_json::Error`. -/
inductive Error where
  | NotReady
  | SerializationError (msg : List Nat)
  | IOError (msg : List Nat)
  | LSPError (msg : List Nat)
  | ParseIntError (msg : List Nat)
  | UTF8Error (msg : List Nat)
  | SendError (msg : List Nat)
deriving Repr, DecidableEq

/-- Decidable equality of `Except` results, for evaluating the model on
concrete inputs. -/
instance exceptDecEq {ε α : Type} [DecidableEq ε] [DecidableEq α] :
    DecidableEq (Except ε α) := fun x y =>
  match x, y with
  | .ok a, .ok b =>
    if h : a = b then isTrue (by rw [h]) else isFalse (by intro hc; cases hc; exact h rfl)
  | .error e, .error f =>
    if h : e = f then isTrue (by rw [h]) else isFalse (by intro hc; cases hc; exact h rfl)
  | .ok _, .error _ => isFalse (by intro hc; cases hc)
  | .error _, .ok _ => isFalse (by intro hc; cases hc)

/-- JSON values as exchanged on the wire.  Numbers are restricted to
unsigned integers: every number this client writes or reads (`id`,
positions) is one. -/
inductive Json where
  | null
  | bool (b : Bool)
  | num (n : Nat)
  | str (s : List Nat)
  | arr (elems : List Json)
  | obj (fields : List (List Nat × Json))

/-- Lowercase hex digit byte, as used by serde_json's escape table. -/
def hexDigitB (n : Nat) : Nat :=
  if n < 10 then 48 + n else 87 + n

/-- serde_json's escaping of one byte inside a JSON string: quote and
backslash get two-byte escapes, the named control characters get their
short escapes, remaining control bytes get `\u00XX`, and everything else
is emitted verbatim. -/
def escapeByte (b : Nat) : List Nat :=
  if b = 34 then [92, 34]
  else if b = 92 then [92, 92]
  else if b = 8 then [92, 98]
  else if b = 9 then [92, 116]
  else if b = 10 then [92, 110]
  else if b = 12 then [92, 102]
  else if b = 13 then [92, 114]
  else if b < 32 then [92, 117, 48, 48, hexDigitB (b / 16), hexDigitB (b % 16)]
  else [b]

/-- serde_json rendering of a JSON string, quotes included. -/
def sString (s : List Nat) : List Nat :=
  34 :: (s.flatMap escapeByte) ++ [34]

mutual

/-- `serde_json::to_string`: compact rendering, no added whitespace. -/
def sJson : Json → List Nat
  | .null => strB ("null")
  | .bool true => strB ("true")
  | .bool false => strB ("false")
  | .num n => natDigits n
  | .str s => sString s
  | .arr xs => 91 :: sArr xs ++ [93]
  | .obj fs => 123 :: sObj fs ++ [125]

/-- Comma-separated rendering of array elements. -/
def sArr : List Json → List Nat
  | [] => []
  | [x] => sJson x
  | x :: y :: rest => sJson x ++ 44 :: sArr (y :: rest)

/-- Comma-separated rendering of object members. -/
def sObj : List (List Nat × Json) → List Nat
  | [] => []
  | [(k, v)] => sString k ++ 58 :: sJson v
  | (k, v) :: f :: rest => sString k ++ 58 :: sJson v ++ 44 :: sObj (f :: rest)

end

/-- JSON whitespace as accepted by serde_json between tokens. -/
def skipWSJ (s : List Nat) : List Nat :=
  s.dropWhile fun b => b == 32 || b == 9 || b == 10 || b == 13

/-- Strip an expected literal byte sequence from the front of the input. -/
def expectBytes : List Nat → List Nat → Option (List Nat)
  | [], s => some s
  | _ :: _, [] => none
  | p :: ps, b :: rest => if b = p then expectBytes ps rest else none

/-- Value of one hexadecimal digit byte. -/
def hexVal (b : Nat) : Option Nat :=
  if 48 ≤ b ∧ b ≤ 57 then some (b - 48)
  else if 97 ≤ b ∧ b ≤ 102 then some (b - 87)
  else if 65 ≤ b ∧ b ≤ 70 then some (b - 55)
  else none

/-- Single-character string escapes accepted by serde_json. -/
def unescapeByte (e : Nat) : Option Nat :=
  if e = 34 then some 34
  else if e = 92 then some 92
  else if e = 47 then some 47
  else if e = 98 then some 8
  else if e = 102 then some 12
  else if e = 110 then some 10
  else if e = 114 then some 13
  else if e = 116 then some 9
  else none

mutual

/-- Fuel-indexed JSON value parser modelling `serde_json::from_slice`'s
grammar on the fragment exchanged here (objects, arrays, strings with
escapes, unsigned integers, literals).  The fuel is an upper bound on the
number of recursive steps; callers supply `input.length + 1`, which every
concrete run in this development stays far below exhausting, since each
recursive call first consumes at least one byte. -/
def pVal : Nat → List Nat → Option (Json × List Nat)
  | 0, _ => none
  | fuel + 1, s =>
    match skipWSJ s with
    | [] => none
    | b :: rest =>
      if b = 110 then (expectBytes (strB ("ull")) rest).map fun r => (Json.null, r)
      else if b = 116 then (expectBytes (strB ("rue")) rest).map fun r => (Json.bool true, r)
      else if b = 102 then (expectBytes (strB ("alse")) rest).map fun r => (Json.bool false, r)
      else if b = 34 then (pStr fuel rest).map fun p => (Json.str p.1, p.2)
      else if b = 91 then
        match skipWSJ rest with
        | 93 :: r => some (Json.arr [], r)
        | other => pElems fuel other []
      else if b = 123 then
        match skipWSJ rest with
        | 125 :: r => some (Json.obj [], r)
        | other => pFields fuel other []
      else if isDigitB b then
        some (Json.num (((b :: rest).takeWhile isDigitB).foldl digitStep 0),
              (b :: rest).dropWhile isDigitB)
      else none

/-- String body parser: input starts right after the opening quote. -/
def pStr : Nat → List Nat → Option (List Nat × List Nat)
  | 0, _ => none
  | fuel + 1, s =>
    match s with
    | [] => none
    | b :: rest =>
      if b = 34 then some ([], rest)
      else if b = 92 then
        match rest with
        | [] => none
        | e :: rest2 =>
          if e = 117 then
            match rest2 with
            | h1 :: h2 :: h3 :: h4 :: rest3 =>
              match hexVal h1, hexVal h2, hexVal h3, hexVal h4 with
              | some a, some b2, some c, some d =>
                let cp := ((a * 16 + b2) * 16 + c) * 16 + d
                if cp < 128 then (pStr fuel rest3).map fun p => (cp :: p.1, p.2)
                else none
              | _, _, _, _ => none
            | _ => none
          else
            match unescapeByte e with
            | some c => (pStr fuel rest2).map fun p => (c :: p.1, p.2)
            | none => none
      else (pStr fuel rest).map fun p => (b :: p.1, p.2)

/-- Array element loop: one element then a comma or closing bracket. -/
def pElems : Nat → List Nat → List Json → Option (Json × List Nat)
  | 0, _, _ => none
  | fuel + 1, s, acc =>
    match pVal fuel s with
    | none => none
    | some (v, r) =>
      match skipWSJ r with
      | 44 :: r2 => pElems fuel r2 (acc ++ [v])
      | 93 :: r2 => some (Json.arr (acc ++ [v]), r2)
      | _ => none

/-- Object member loop: a quoted key, a colon, a value, then a comma or
closing brace. -/
def pFields : Nat → List Nat → List (List Nat × Json) → Option (Json × List Nat)
  | 0, _, _ => none
  | fuel + 1, s, acc =>
    match skipWSJ s with
    | 34 :: r =>
      match pStr fuel r with
      | none => none
      | some (k, r1) =>
        match skipWSJ r1 with
        | 58 :: r3 =>
          match pVal fuel r3 with
          | none => none
          | some (v, r4) =>
            match skipWSJ r4 with
            | 44 :: r6 => pFields fuel r6 (acc ++ [(k, v)])
            | 125 :: r6 => some (Json.obj (acc ++ [(k, v)]), r6)
            | _ => none
        | _ => none
    | _ => none

end

/-- `serde_json::from_slice` at the JSON-value level: parse one value and
require only trailing whitespace after it. -/
def parseJson (s : List Nat) : Except Error Json :=
  match pVal (s.length + 1) s with
  | some (j, rest) =>
    if skipWSJ rest = [] then .ok j
    else .error (.SerializationError (strB ("trailing characters")))
  | none => .error (.SerializationError (strB ("invalid JSON")))

/-- `HashMap::insert`: replace the binding of an existing key in place, or
append a new binding.  Association lists model the two HashMaps of the
runner (the header map and the response correlation table). -/
def insertAL {κ α : Type} [DecidableEq κ] (key : κ) (v : α) : List (κ × α) → List (κ × α)
  | [] => [(key, v)]
  | (k, w) :: rest => if k = key then (key, v) :: rest else (k, w) :: insertAL key v rest

/-- `HashMap::get`. -/
def lookupAL {κ α : Type} [DecidableEq κ] (key : κ) : List (κ × α) → Option α
  | [] => none
  | (k, w) :: rest => if k = key then some w else lookupAL key rest

/-- `HashMap::remove`, returning the removed value and the remaining map. -/
def removeAL {κ α : Type} [DecidableEq κ] (key : κ) : List (κ × α) → Option (α × List (κ × α))
  | [] => none
  | (k, w) :: rest =>
    if k = key then some (w, rest)
    else (removeAL key rest).map fun p => (p.1, (k, w) :: p.2)

/-- Keys of an association list. -/
def keysAL {κ α : Type} (m : List (κ × α)) : List κ :=
  m.map Prod.fst

/-- `pkm::lsp::Response` (src/lsp/response.rs): headers, the `jsonrpc`
version string, the request id and the raw `result` payload, which the
source keeps as an undecoded `RawValue` and this model keeps as the parsed
JSON value. -/
structure Response where
  headers : List (List Nat × List Nat)
  version : List Nat
  id : Nat
  result : Json

/-- The serde deserialization of `Response` from a JSON value: `jsonrpc`
must be a string, `id` an unsigned integer fitting `u32`, `result` must be
present (any value); unknown members such as `method`, `params` or `error`
are ignored; `headers` is `#[serde(skip)]` and filled in by the caller.
(serde reports the failing member in source order; this model checks the
three struct fields by lookup, which distinguishes the same inputs.) -/
def responseFromJson (j : Json) : Except Error Response :=
  match j with
  | .obj fields =>
    match lookupAL (strB ("jsonrpc")) fields with
    | some (.str v) =>
      match lookupAL (strB ("id")) fields with
      | some (.num i) =>
        if i < 4294967296 then
          match lookupAL (strB ("result")) fields with
          | some res => .ok { headers := [], version := v, id := i, result := res }
          | none => .error (.SerializationError (strB ("missing field result")))
        else .error (.SerializationError (strB ("invalid value for field id")))
      | _ => .error (.SerializationError (strB ("invalid type or missing field id")))
    | _ => .error (.SerializationError (strB ("invalid type or missing field jsonrpc")))
  | _ => .error (.SerializationError (strB ("invalid type: expected struct Response")))

/-- `Response::new(headers, content)`: parse the body bytes, then attach
the headers. -/
def Response.new (headers : List (List Nat × List Nat)) (content : List Nat) :
    Except Error Response :=
  match parseJson content with
  | .ok j =>
    match responseFromJson j with
    | .ok resp => .ok { resp with headers := headers }
    | .error e => .error e
  | .error e => .error e

/-- Rust `str::split_once` on bytes: split at the first occurrence of the
separator, the separator itself belonging to neither part. -/
def splitOnceB (sep : Nat) : List Nat → Option (List Nat × List Nat)
  | [] => none
  | b :: rest =>
    if b = sep then some ([], rest)
    else (splitOnceB sep rest).map fun p => (b :: p.1, p.2)

/-- The invalid-header error produced by `read_response` for a header line
with no colon: `Error::LSPError(format!("Invalid header \"{}\"", buf))`. -/
def invalidHeaderMsg (line : List Nat) : Error :=
  .LSPError (strB ("Invalid header ") ++ [34] ++ line ++ [34])

/-- Parse one nonblank header line: split on the first colon, trim and
lowercase the key, trim the value, insert into the header map.  A line
with no colon is the invalid-header error. -/
def headerLineStep (acc : List (List Nat × List Nat)) (line : List Nat) :
    Except Error (List (List Nat × List Nat)) :=
  match splitOnceB 58 line with
  | none => .error (invalidHeaderMsg line)
  | some (k, v) => .ok (insertAL (toLowerB (trimB k)) (trimB v) acc)

/-- The header loop of `StandardRunnerReader::read_response`: read lines
(byte by byte, a line ends at a newline byte and includes it, exactly as
Rust's `read_line` delivers it) until a line that is blank after
`trim_end`, accumulating parsed headers.  At end of input, `read_line`
returns the final unterminated line, and the following `read_line` returns
an empty (hence blank) line, ending the loop. -/
def readHeadersGo (acc : List (List Nat × List Nat)) (cur : List Nat) :
    List Nat → Except Error (List (List Nat × List Nat) × List Nat)
  | [] =>
    if trimRightB cur = [] then .ok (acc, [])
    else
      match headerLineStep acc cur with
      | .ok acc2 => .ok (acc2, [])
      | .error e => .error e
  | b :: rest =>
    if b = 10 then
      if trimRightB (cur ++ [10]) = [] then .ok (acc, rest)
      else
        match headerLineStep acc (cur ++ [10]) with
        | .ok acc2 => readHeadersGo acc2 [] rest
        | .error e => .error e
    else readHeadersGo acc (cur ++ [b]) rest

/-- `Read::read_exact` into a buffer of `n` bytes: take exactly `n` bytes
or fail when the stream ends first. -/
def readExact (n : Nat) (s : List Nat) : Option (List Nat × List Nat) :=
  if n ≤ s.length then some (s.take n, s.drop n) else none

/-- The framing part of `StandardRunnerReader::read_response`: header loop,
`content-length` lookup, integer parse, then exactly that many body bytes.
Returns headers, body and the unconsumed remainder of the stream. -/
def readFrame (input : List Nat) :
    Except Error (List (List Nat × List Nat) × List Nat × List Nat) :=
  match readHeadersGo [] [] input with
  | .error e => .error e
  | .ok (headers, rest) =>
    match lookupAL (strB ("content-length")) headers with
    | none => .error (.LSPError (strB ("missing required header Content-Length")))
    | some lenStr =>
      match parseUsize lenStr with
      | none => .error (.ParseIntError lenStr)
      | some len =>
        match readExact len rest with
        | none => .error (.IOError (strB ("failed to fill whole buffer")))
        | some (body, rest2) => .ok (headers, body, rest2)

/-- `StandardRunnerReader::read_response`: one decoded frame —
headers and body per `readFrame`, then `Response::new` on the body. -/
def read_response (input : List Nat) : Except Error (Response × List Nat) :=
  match readFrame input with
  | .error e => .error e
  | .ok (headers, body, rest) =>
    match Response.new headers body with
    | .ok resp => .ok (resp, rest)
    | .error e => .error e

/-- `StandardRunnerReader::start`, fuel-indexed: decode frames one at a
time, publishing each into the channel, until `read_response` fails; the
loop then returns, dropping the channel's send side.  Result: the list of
published responses and the terminating error.  Fuel bounds the number of
frames; each successful frame consumes at least one input byte, so the
`input.length + 1` supplied by `readerRun` never runs out. -/
def readerRunF : Nat → List Nat → List Response × Error
  | 0, _ => ([], .LSPError (strB ("reciever closed")))
  | fuel + 1, input =>
    match read_response input with
    | .error e => ([], e)
    | .ok (resp, rest) =>
      let (rs, e) := readerRunF fuel rest
      (resp :: rs, e)

/-- The reader loop on a complete input stream. -/
def readerRun (input : List Nat) : List Response × Error :=
  readerRunF (input.length + 1) input

/-- `StandardRunner::response(r)` (src/lsp/runner_standard.rs lines
93-107): loop \x7b receive one response from the channel (the channel being
closed is the receiver-closed error), insert it into the `responses` map
keyed by its id, then try to remove the entry for `r` \x7d.  `incoming` is
the sequence of responses the channel will still deliver before it closes.
Returns the claimed response, the remaining map and the remaining channel
contents. -/
def runnerResponse (responses : List (Nat × Response)) (incoming : List Response) (r : Nat) :
    Except Error (Response × List (Nat × Response) × List Response) :=
  match incoming with
  | [] => .error (.LSPError (strB ("reciever closed")))
  | resp :: rest =>
    match removeAL r (insertAL resp.id resp responses) with
    | some (found, responses3) => .ok (found, responses3, rest)
    | none => runnerResponse (insertAL resp.id resp responses) rest r

/-- `pkm::lsp::Request` (src/lsp/request.rs): id (assigned at send time),
method and the serializable params payload. -/
structure Request where
  id : Nat
  method : List Nat
  content : Json

/-- The `Serialize` impl for `Request`: a four-entry map with exactly the
keys `jsonrpc` (always "2.0"), `id`, `method` and `params`, in that
order. -/
def Request.toJson (r : Request) : Json :=
  Json.obj [(strB ("jsonrpc"), Json.str (strB ("2.0"))),
            (strB ("id"), Json.num r.id),
            (strB ("method"), Json.str r.method),
            (strB ("params"), r.content)]

/-- The bytes of one serialized request. -/
def Request.body (r : Request) : List Nat :=
  sJson r.toJson

/-- The frame written by `StandardRunnerWriter::send`:
`format!("Content-Length:\x7b\x7d\r\n\r\n\x7b\x7d", req_b.len(), &req_b)`,
where `req_b.len()` is the byte length of the JSON body. -/
def wireFrame (r : Request) : List Nat :=
  strB ("Content-Length:") ++ natDigits r.body.length ++ [13, 10, 13, 10] ++ r.body

/-- `StandardRunnerWriter::next_request_id`:
`self.request.fetch_add(1, Ordering::SeqCst)` on an `AtomicU32` — returns
the current counter and stores the increment, which wraps modulo 2 ^ 32. -/
def next_request_id (c : Nat) : Nat × Nat :=
  (c, (c + 1) % 4294967296)

/-- A sequence of `send` calls sharing one counter.  Each element of the
outcome list says whether that call's write to the sink succeeded; the id
is fetched-and-incremented before the write either way, so a failing send
still consumes its id.  Returns the list of (assigned id, write succeeded)
pairs and the final counter. -/
def runSends (c : Nat) : List Bool → List (Nat × Bool) × Nat
  | [] => ([], c)
  | ok :: rest =>
    let (id, c2) := next_request_id c
    let (log, c3) := runSends c2 rest
    ((id, ok) :: log, c3)

/-- The ids assigned by a sequence of sends. -/
def sendIds (c : Nat) (outs : List Bool) : List Nat :=
  ((runSends c outs).1).map Prod.fst

/-- The ids actually written to the wire: those of the successful sends. -/
def wireIds (c : Nat) (outs : List Bool) : List Nat :=
  (((runSends c outs).1).filter Prod.snd).map Prod.fst

/-- State of one `StandardRunner` together with its writer: the shared
`AtomicU32` counter, the frames written to the subprocess so far, the
correlation map, and the responses the channel will still deliver before
the reader loop ends. -/
structure LSPState where
  counter : Nat
  wire : List (List Nat)
  table : List (Nat × Response)
  incoming : List Response

/-- `StandardRunnerWriter::send` at the client level: assign the next id,
overwrite `msg.id` with it, serialize, write the full frame, and return
the id without waiting for any response. -/
def lspSend (st : LSPState) (method : List Nat) (params : Json) : Nat × LSPState :=
  let (id, c2) := next_request_id st.counter
  let req : Request := { id := id, method := method, content := params }
  (id, { st with counter := c2, wire := st.wire ++ [wireFrame req] })

/-- The runner state after one send of the given request (id taken from
the counter) followed by a successful claim that left the correlation
table at `tbl2` and the channel at `inc2`. -/
def afterSend (st : LSPState) (method : List Nat) (params : Json)
    (tbl2 : List (Nat × Response)) (inc2 : List Response) : LSPState :=
  { counter := (st.counter + 1) % 4294967296
    wire := st.wire ++ [wireFrame (Request.mk st.counter method params)]
    table := tbl2
    incoming := inc2 }

/-- `Runner::response` at the client level, threading the runner state. -/
def lspResponse (st : LSPState) (r : Nat) : Except Error (Response × LSPState) :=
  match runnerResponse st.table st.incoming r with
  | .ok (resp, table2, incoming2) => .ok (resp, { st with table := table2, incoming := incoming2 })
  | .error e => .error e

/-- Modelled from the spec and the lsp_types dependency (not under src/):
the serialized `InitializeParams` that `LSP::init` builds — the members
this client sets are the workspace root as a legacy path string
(`rootPath`), as a URI (`rootUri`), and one workspace folder named "root"
with that same URI, each URI being `file://` followed by the workspace
path (`Uri::from_str` is modelled as the identity on the URI text). -/
def initParamsJson (ws : List Nat) : Json :=
  Json.obj [(strB ("processId"), Json.null),
            (strB ("rootPath"), Json.str (strB ("file://") ++ ws)),
            (strB ("rootUri"), Json.str (strB ("file://") ++ ws)),
            (strB ("capabilities"), Json.obj []),
            (strB ("workspaceFolders"),
              Json.arr [Json.obj [(strB ("uri"), Json.str (strB ("file://") ++ ws)),
                                  (strB ("name"), Json.str (strB ("root")))]])]

/-- `LSP::init` (src/lsp/mod.rs lines 60-88): build the initialize request,
send it through the writer, then block on `runner.response(id)` for the id
the send assigned; the response's payload is discarded. -/
def LSP.init (ws : List Nat) (st : LSPState) : Except Error LSPState :=
  let (id, st2) := lspSend st (strB ("initialize")) (initParamsJson ws)
  match lspResponse st2 id with
  | .ok (_resp, st3) => .ok st3
  | .error e => .error e

/-- `LSP::new` (src/lsp/mod.rs lines 47-55): obtain a sender (infallible
for the standard runner), run the initialize handshake, and only then
return the client value; an init failure is returned instead of a
client. -/
def LSP.new (ws : List Nat) (st : LSPState) : Except Error LSPState :=
  match LSP.init ws st with
  | .ok st2 => .ok st2
  | .error e => .error e

/-- `lsp_types::Position`: zero-based line and character. -/
structure Position where
  line : Nat
  character : Nat

/-- `lsp_types::Range` (`end` is a Lean keyword, hence `endPos`). -/
structure Range where
  start : Position
  endPos : Position

/-- `lsp_types::Location`: a URI (kept as its text) and a range. -/
structure Location where
  uri : List Nat
  range : Range

/-- `lsp_types::LocationLink` (the fields the untagged decoding keys on). -/
structure LocationLink where
  targetUri : List Nat
  targetRange : Range
  targetSelectionRange : Range

/-- `lsp_types::GotoDefinitionResponse`: an untagged enum of a single
location, a list of locations, or a list of location links. -/
inductive GotoDefinitionResponse where
  | Scalar (l : Location)
  | Array (ls : List Location)
  | Link (ls : List LocationLink)

/-- Decode a `Position` object. -/
def decodePosition (j : Json) : Option Position :=
  match j with
  | .obj fs =>
    match lookupAL (strB ("line")) fs, lookupAL (strB ("character")) fs with
    | some (.num l), some (.num c) =>
      if l < 4294967296 ∧ c < 4294967296 then some { line := l, character := c } else none
    | _, _ => none
  | _ => none

/-- Decode a `Range` object. -/
def decodeRange (j : Json) : Option Range :=
  match j with
  | .obj fs =>
    match lookupAL (strB ("start")) fs, lookupAL (strB ("end")) fs with
    | some s, some e =>
      match decodePosition s, decodePosition e with
      | some ps, some pe => some { start := ps, endPos := pe }
      | _, _ => none
    | _, _ => none
  | _ => none

/-- Decode a `Location` object. -/
def decodeLocation (j : Json) : Option Location :=
  match j with
  | .obj fs =>
    match lookupAL (strB ("uri")) fs, lookupAL (strB ("range")) fs with
    | some (.str u), some rj =>
      (decodeRange rj).map fun rg => { uri := u, range := rg }
    | _, _ => none
  | _ => none

/-- Decode a `LocationLink` object. -/
def decodeLocationLink (j : Json) : Option LocationLink :=
  match j with
  | .obj fs =>
    match lookupAL (strB ("targetUri")) fs, lookupAL (strB ("targetRange")) fs,
          lookupAL (strB ("targetSelectionRange")) fs with
    | some (.str u), some rj, some sj =>
      match decodeRange rj, decodeRange sj with
      | some rg, some sg =>
        some { targetUri := u, targetRange := rg, targetSelectionRange := sg }
      | _, _ => none
    | _, _, _ => none
  | _ => none

/-- Decode every element of a JSON array with one element decoder. -/
def decodeList {α : Type} (dec : Json → Option α) : List Json → Option (List α)
  | [] => some []
  | j :: rest =>
    match dec j, decodeList dec rest with
    | some a, some as2 => some (a :: as2)
    | _, _ => none

/-- Modelled from the lsp_types dependency (not under src/): serde's
untagged deserialization of `GotoDefinitionResponse`, trying the variants
in declaration order — a single `Location`, then a list of `Location`s,
then a list of `LocationLink`s. -/
def decodeGotoDef (j : Json) : Except Error GotoDefinitionResponse :=
  match decodeLocation j with
  | some l => .ok (.Scalar l)
  | none =>
    match j with
    | .arr elems =>
      match decodeList decodeLocation elems with
      | some ls => .ok (.Array ls)
      | none =>
        match decodeList decodeLocationLink elems with
        | some links => .ok (.Link links)
        | none => .error (.SerializationError (strB ("data did not match any variant")))
    | _ => .error (.SerializationError (strB ("data did not match any variant")))

/-- The params `LSP::goto_defintion` builds: a text document identifier
whose URI is `file://` followed by the path, and the given zero-based
position (the two optional progress params are `None` and are skipped by
serde). -/
def gotoDefParamsJson (path : List Nat) (line character : Nat) : Json :=
  Json.obj [(strB ("textDocument"),
              Json.obj [(strB ("uri"), Json.str (strB ("file://") ++ path))]),
            (strB ("position"),
              Json.obj [(strB ("line"), Json.num line),
                        (strB ("character"), Json.num character)])]

/-- `LSP::goto_defintion` (sic, src/lsp/mod.rs lines 90-117): build the
navigation request, send it, await the response with the assigned id, then
deserialize its raw result as a `GotoDefinitionResponse`. -/
def LSP.goto_defintion (path : List Nat) (line character : Nat) (st : LSPState) :
    Except Error (GotoDefinitionResponse × LSPState) :=
  let (id, st2) := lspSend st (strB ("textDocument/definition"))
                     (gotoDefParamsJson path line character)
  match lspResponse st2 id with
  | .ok (resp, st3) =>
    match decodeGotoDef resp.result with
    | .ok g => .ok (g, st3)
    | .error e => .error e
  | .error e => .error e

/-- The consumer in `run_favorites` (src/bin/main.rs lines 443-460): a
scalar yields its one location URI, an array yields each location's URI,
and the link shape is skipped, contributing no locations. -/
def favoritesLocations : GotoDefinitionResponse → List (List Nat)
  | .Scalar l => [l.uri]
  | .Array ls => ls.map Location.uri
  | .Link _ => []

/-- Modelled from the spec: the wire encoding the spec's codec contract
describes, `Content-Length: <n>\r\n\r\n<json-body>` — with a space after
the colon. -/
def specEncode (r : Request) : List Nat :=
  strB ("Content-Length: ") ++ natDigits r.body.length ++ [13, 10, 13, 10] ++ r.body

/-- Modelled from the spec: "fails with a MalformedHeader condition if a
non-blank header line contains no colon".  Walks the same header lines as
`readHeadersGo` and reports whether some non-blank line before the blank
terminator lacks a colon. -/
def specHasMalformedHeader (cur : List Nat) : List Nat → Bool
  | [] =>
    if trimRightB cur = [] then false
    else decide (¬ 58 ∈ cur)
  | b :: rest =>
    if b = 10 then
      if trimRightB (cur ++ [10]) = [] then false
      else if 58 ∈ cur ++ [10] then specHasMalformedHeader [] rest
      else true
    else specHasMalformedHeader (cur ++ [b]) rest

/-- Invariant of the correlation table: every stored response is keyed by
its own id (the reader inserts each response under `resp.id`). -/
def tableInv (tbl : List (Nat × Response)) : Prop :=
  ∀ k v, lookupAL k tbl = some v → v.id = k

/-- Recognize the invalid-header (malformed header) error by its message
shape, distinguishing it from the other `LSPError` message of the
reader. -/
def isInvalidHeaderErr : Error → Bool
  | .LSPError m => m.take 15 = strB ("Invalid header ")
  | _ => false

/-- A concrete response frame used by the witnesses. -/
def sampleResponse : Response :=
  { headers := [], version := strB ("2.0"), id := 0, result := Json.null }

/-- A concrete runner state used by the witnesses: fresh counter, empty
wire and table, one response with id 0 to be delivered. -/
def sampleState : LSPState :=
  { counter := 0, wire := [], table := [], incoming := [sampleResponse] }

/-- The body bytes of a well-framed JSON-RPC error reply for request id 1:
an `error` member stands in place of `result`
(`\x7b"jsonrpc":"2.0","id":1,"error":\x7b\x7d\x7d`). -/
def errorReplyBody : List Nat :=
  sJson (Json.obj [(strB ("jsonrpc"), Json.str (strB ("2.0"))),
                   (strB ("id"), Json.num 1),
                   (strB ("error"), Json.obj [])])

/-- That error reply framed exactly as the server would send it:
`Content-Length` header, blank line, body. -/
def errorReplyFrame : List Nat :=
  strB ("Content-Length:") ++ natDigits errorReplyBody.length
    ++ [13, 10, 13, 10] ++ errorReplyBody

/-!  ## Lemmas about decimal digits -/

theorem natDigitsAux_mem : ∀ (fuel n : Nat), n < fuel →
    ∀ b ∈ natDigitsAux fuel n, 48 ≤ b ∧ b ≤ 57 := by
  intro fuel
  induction fuel with
  | zero => intro n hn; omega
  | succ fuel ih =>
    intro n hn b hb
    unfold natDigitsAux at hb
    by_cases h : n < 10
    · rw [if_pos h] at hb
      simp at hb
      omega
    · rw [if_neg h] at hb
      rcases List.mem_append.1 hb with h1 | h2
      · have hlt : n / 10 < fuel := by
          have := Nat.div_lt_self (show 0 < n by omega) (show 1 < 10 by omega)
          omega
        exact ih (n / 10) hlt b h1
      · simp at h2
        have := Nat.mod_lt n (show 0 < 10 by omega)
        omega

theorem natDigits_mem (n : Nat) : ∀ b ∈ natDigits n, 48 ≤ b ∧ b ≤ 57 :=
  natDigitsAux_mem (n + 1) n (Nat.lt_succ_self n)

theorem natDigitsAux_ne_nil : ∀ (fuel n : Nat), n < fuel → natDigitsAux fuel n ≠ [] := by
  intro fuel
  cases fuel with
  | zero => intro n hn; omega
  | succ fuel =>
    intro n _
    unfold natDigitsAux
    split
    · simp
    · simp

theorem natDigits_ne_nil (n : Nat) : natDigits n ≠ [] :=
  natDigitsAux_ne_nil (n + 1) n (Nat.lt_succ_self n)

theorem foldl_digitStep_natDigitsAux : ∀ (fuel n : Nat), n < fuel →
    ∀ a, (natDigitsAux fuel n).foldl digitStep a
      = a * 10 ^ (natDigitsAux fuel n).length + n := by
  intro fuel
  induction fuel with
  | zero => intro n hn; omega
  | succ fuel ih =>
    intro n hn a
    unfold natDigitsAux
    by_cases h : n < 10
    · rw [if_pos h]
      simp [digitStep]
      omega
    · rw [if_neg h]
      have hlt : n / 10 < fuel := by
        have := Nat.div_lt_self (show 0 < n by omega) (show 1 < 10 by omega)
        omega
      rw [List.foldl_append, ih (n / 10) hlt a]
      simp [digitStep, List.length_append, pow_succ]
      have hsplit : 10 * (a * 10 ^ (natDigitsAux fuel (n / 10)).length + n / 10) + n % 10
          = a * (10 ^ (natDigitsAux fuel (n / 10)).length * 10) + (10 * (n / 10) + n % 10) := by
        ring
      rw [hsplit, Nat.div_add_mod]

theorem foldl_digitStep_natDigits (n : Nat) :
    ∀ a, (natDigits n).foldl digitStep a = a * 10 ^ (natDigits n).length + n :=
  foldl_digitStep_natDigitsAux (n + 1) n (Nat.lt_succ_self n)

theorem parseDigits_natDigits (n : Nat) : parseDigits (natDigits n) = some n := by
  have hall : (natDigits n).all isDigitB = true := by
    rw [List.all_eq_true]
    intro b hb
    have := natDigits_mem n b hb
    simp [isDigitB]
    omega
  have hne : (natDigits n).isEmpty = false := by
    cases hd : natDigits n with
    | nil => exact absurd hd (natDigits_ne_nil n)
    | cons a l => simp
  unfold parseDigits
  rw [hne, hall]
  simp
  have := foldl_digitStep_natDigits n 0
  simpa using this

theorem parseUsize_natDigits (n : Nat) : parseUsize (natDigits n) = some n := by
  cases hd : natDigits n with
  | nil => exact absurd hd (natDigits_ne_nil n)
  | cons a l =>
    have ha : 48 ≤ a ∧ a ≤ 57 := natDigits_mem n a (by rw [hd]; simp)
    have h43 : ¬ a = 43 := by omega
    have hstep : parseUsize (a :: l) = parseDigits (a :: l) := by
      simp [parseUsize, h43]
    rw [hstep, ← hd, parseDigits_natDigits]

/-!  ## Lemmas about trimming and whitespace -/

theorem trimRightB_append_of_nil {t : List Nat} (h : trimRightB t = []) (s : List Nat) :
    trimRightB (s ++ t) = trimRightB s := by
  induction s with
  | nil => simpa using h
  | cons b s ih =>
    show trimRightB (b :: (s ++ t)) = _
    unfold trimRightB
    rw [ih]

theorem trimRightB_of_no_ws {s : List Nat} (h : ∀ b ∈ s, isWSB b = false) :
    trimRightB s = s := by
  induction s with
  | nil => rfl
  | cons b s ih =>
    have hb : isWSB b = false := h b (by simp)
    have hs := ih fun x hx => h x (by simp [hx])
    unfold trimRightB
    rw [hs]
    cases s with
    | nil => simp [hb]
    | cons c l => rfl

theorem trimLeftB_of_no_ws {s : List Nat} (h : ∀ b ∈ s, isWSB b = false) :
    trimLeftB s = s := by
  cases s with
  | nil => rfl
  | cons b l =>
    unfold trimLeftB
    rw [List.dropWhile_cons_of_neg]
    simp [h b (by simp)]

theorem trimB_of_no_ws {s : List Nat} (h : ∀ b ∈ s, isWSB b = false) :
    trimB s = s := by
  unfold trimB
  rw [trimRightB_of_no_ws h, trimLeftB_of_no_ws h]

theorem trimB_append_crlf {s : List Nat} (h : ∀ b ∈ s, isWSB b = false) :
    trimB (s ++ [13, 10]) = s := by
  unfold trimB
  rw [trimRightB_append_of_nil (by rfl) s, trimRightB_of_no_ws h, trimLeftB_of_no_ws h]

theorem trimRightB_cons_ne_nil {b : Nat} (h : isWSB b = false) (s : List Nat) :
    trimRightB (b :: s) ≠ [] := by
  unfold trimRightB
  cases hs : trimRightB s with
  | nil => simp [h]
  | cons c l => simp

theorem digits_no_ws {s : List Nat} (h : ∀ b ∈ s, 48 ≤ b ∧ b ≤ 57) :
    ∀ b ∈ s, isWSB b = false := by
  intro b hb
  have := h b hb
  simp [isWSB]
  omega

/-!  ## Lemmas about splitting header lines -/

theorem splitOnceB_append {sep : Nat} {k : List Nat} (h : sep ∉ k) (v : List Nat) :
    splitOnceB sep (k ++ sep :: v) = some (k, v) := by
  induction k with
  | nil => simp [splitOnceB]
  | cons b rest ih =>
    have hb : ¬ b = sep := fun he => h (by simp [he])
    show splitOnceB sep (b :: (rest ++ sep :: v)) = _
    unfold splitOnceB
    rw [if_neg hb, ih (fun hm => h (by simp [hm]))]
    rfl

theorem splitOnceB_eq_none_iff {sep : Nat} {s : List Nat} :
    splitOnceB sep s = none ↔ sep ∉ s := by
  induction s with
  | nil => simp [splitOnceB]
  | cons b rest ih =>
    unfold splitOnceB
    by_cases hb : b = sep
    · subst hb
      simp
    · rw [if_neg hb]
      cases hs : splitOnceB sep rest with
      | none =>
        constructor
        · intro _
          intro hm
          rcases List.mem_cons.1 hm with h1 | h2
          · exact hb h1.symm
          · exact (ih.1 hs) h2
        · intro _; rfl
      | some p =>
        constructor
        · intro hc
          simp at hc
        · intro hm
          have hmem : sep ∈ rest := by
            by_contra hnot
            rw [ih.2 hnot] at hs
            cases hs
          exact absurd (by simp [hmem] : sep ∈ b :: rest) hm

/-!  ## Lemmas about the association-list maps -/

theorem lookupAL_insertAL {κ α : Type} [DecidableEq κ] (k j : κ) (v : α)
    (m : List (κ × α)) :
    lookupAL j (insertAL k v m) = if k = j then some v else lookupAL j m := by
  induction m with
  | nil => simp [insertAL, lookupAL]
  | cons p rest ih =>
    obtain ⟨k', w⟩ := p
    by_cases hk : k' = k
    · subst hk
      by_cases hj : k' = j
      · subst hj; simp [insertAL, lookupAL]
      · simp [insertAL, lookupAL, hj]
    · by_cases hj : k' = j
      · subst hj
        have hkj : ¬ k = k' := fun he => hk he.symm
        simp [insertAL, lookupAL, hk, hkj]
      · simp [insertAL, lookupAL, hk, hj, ih]

theorem mem_keysAL_iff_lookupAL {κ α : Type} [DecidableEq κ] {k : κ} {m : List (κ × α)} :
    k ∈ keysAL m ↔ ∃ v, lookupAL k m = some v := by
  induction m with
  | nil => simp [keysAL, lookupAL]
  | cons p rest ih =>
    obtain ⟨k', w⟩ := p
    unfold keysAL lookupAL
    by_cases hj : k' = k
    · subst hj
      simp
    · simp only [List.map_cons, List.mem_cons, if_neg hj]
      constructor
      · intro h
        rcases h with h1 | h2
        · exact absurd h1.symm hj
        · exact ih.1 h2
      · intro h
        exact Or.inr (ih.2 h)

theorem removeAL_eq_none {κ α : Type} [DecidableEq κ] {k : κ} {m : List (κ × α)}
    (h : k ∉ keysAL m) : removeAL k m = none := by
  induction m with
  | nil => rfl
  | cons p rest ih =>
    obtain ⟨k', w⟩ := p
    have hne : ¬ k' = k := fun he => h (by simp [keysAL, he])
    unfold removeAL
    rw [if_neg hne, ih (fun hm => h (by simp [keysAL] at hm ⊢; exact Or.inr hm))]
    rfl

theorem removeAL_lookupAL {κ α : Type} [DecidableEq κ] {k : κ} {m : List (κ × α)}
    {v : α} {m' : List (κ × α)} (h : removeAL k m = some (v, m')) :
    lookupAL k m = some v := by
  induction m generalizing m' with
  | nil => cases h
  | cons p rest ih =>
    obtain ⟨k', w⟩ := p
    unfold removeAL at h
    unfold lookupAL
    by_cases hk : k' = k
    · rw [if_pos hk] at h
      rw [if_pos hk]
      cases h
      rfl
    · rw [if_neg hk] at h
      rw [if_neg hk]
      cases hr : removeAL k rest with
      | none => rw [hr] at h; cases h
      | some q =>
        rw [hr] at h
        cases h
        exact ih hr

theorem keysAL_insertAL_mem {κ α : Type} [DecidableEq κ] {j : κ} (k : κ) (v : α)
    {m : List (κ × α)} (h : j ∈ keysAL m) : j ∈ keysAL (insertAL k v m) := by
  rw [mem_keysAL_iff_lookupAL] at h ⊢
  obtain ⟨w, hw⟩ := h
  rw [lookupAL_insertAL]
  by_cases hk : k = j
  · exact ⟨v, by rw [if_pos hk]⟩
  · exact ⟨w, by rw [if_neg hk]; exact hw⟩

theorem tableInv_insert {tbl : List (Nat × Response)} (h : tableInv tbl)
    (resp : Response) : tableInv (insertAL resp.id resp tbl) := by
  intro k v hv
  rw [lookupAL_insertAL] at hv
  by_cases hk : resp.id = k
  · rw [if_pos hk] at hv
    cases hv
    exact hk
  · rw [if_neg hk] at hv
    exact h k v hv

/-!  ## Lemmas about the correlation loop -/

theorem runnerResponse_not_found {tbl : List (Nat × Response)}
    {incoming : List Response} {r : Nat} (htbl : r ∉ keysAL tbl)
    (hinc : r ∉ incoming.map Response.id) :
    runnerResponse tbl incoming r = .error (.LSPError (strB ("reciever closed"))) := by
  induction incoming generalizing tbl with
  | nil => rfl
  | cons m rest ih =>
    have hmr : ¬ m.id = r := fun he => hinc (by simp [he])
    have hkeys : r ∉ keysAL (insertAL m.id m tbl) := by
      rw [mem_keysAL_iff_lookupAL]
      rintro ⟨v, hv⟩
      rw [lookupAL_insertAL, if_neg hmr] at hv
      exact htbl (mem_keysAL_iff_lookupAL.2 ⟨v, hv⟩)
    unfold runnerResponse
    rw [removeAL_eq_none hkeys]
    exact ih hkeys (fun hm => hinc (by simp at hm ⊢; exact Or.inr hm))

theorem runnerResponse_found {tbl : List (Nat × Response)}
    {incoming : List Response} {r : Nat} (hinv : tableInv tbl)
    (h : (r ∈ keysAL tbl ∧ incoming ≠ []) ∨ r ∈ incoming.map Response.id) :
    ∃ resp tbl2 rest, runnerResponse tbl incoming r = .ok (resp, tbl2, rest)
      ∧ resp.id = r := by
  induction incoming generalizing tbl with
  | nil =>
    rcases h with ⟨_, hne⟩ | hmem
    · exact absurd rfl hne
    · simp at hmem
  | cons m rest ih =>
    have hinv2 : tableInv (insertAL m.id m tbl) := tableInv_insert hinv m
    unfold runnerResponse
    cases hrem : removeAL r (insertAL m.id m tbl) with
    | some p =>
      obtain ⟨found, tbl3⟩ := p
      refine ⟨found, tbl3, rest, rfl, ?_⟩
      exact hinv2 r found (removeAL_lookupAL hrem)
    | none =>
      have hnotkey : r ∉ keysAL (insertAL m.id m tbl) := by
        intro hmem
        obtain ⟨v, hv⟩ := mem_keysAL_iff_lookupAL.1 hmem
        obtain ⟨q, hq⟩ : ∃ q, removeAL r (insertAL m.id m tbl) = some q := by
          clear hrem hv
          generalize insertAL m.id m tbl = l at hmem
          induction l with
          | nil => simp [keysAL] at hmem
          | cons p2 t iht =>
            obtain ⟨k2, w2⟩ := p2
            by_cases hk2 : k2 = r
            · exact ⟨(w2, t), by simp [removeAL, hk2]⟩
            · have : r ∈ keysAL t := by
                simp [keysAL] at hmem
                rcases hmem with h1 | h2
                · exact absurd h1.symm hk2
                · simpa [keysAL] using h2
              obtain ⟨q2, hq2⟩ := iht this
              exact ⟨(q2.1, (k2, w2) :: q2.2), by simp [removeAL, hk2, hq2]⟩
        rw [hq] at hrem
        cases hrem
      apply ih hinv2
      rcases h with ⟨htbl, _⟩ | hmem
      · exact absurd (keysAL_insertAL_mem m.id m htbl) hnotkey
      · simp at hmem
        rcases hmem with h1 | h2
        · exfalso
          apply hnotkey
          rw [mem_keysAL_iff_lookupAL, lookupAL_insertAL]
          exact ⟨m, by rw [if_pos h1.symm]⟩
        · right
          simpa using h2

/-!  ## Lemmas about the header loop and framing -/

theorem readHeadersGo_consume {l : List Nat} (h : (10 : Nat) ∉ l) :
    ∀ acc cur rest, readHeadersGo acc cur (l ++ rest) = readHeadersGo acc (cur ++ l) rest := by
  induction l with
  | nil => intro acc cur rest; simp
  | cons b t ih =>
    intro acc cur rest
    have hb : ¬ b = 10 := fun he => h (by simp [he])
    show readHeadersGo acc cur (b :: (t ++ rest)) = readHeadersGo acc (cur ++ b :: t) rest
    calc readHeadersGo acc cur (b :: (t ++ rest))
        = readHeadersGo acc (cur ++ [b]) (t ++ rest) := by
          rw [readHeadersGo.eq_def]
          simp [hb]
      _ = readHeadersGo acc ((cur ++ [b]) ++ t) rest := ih (fun hm => h (by simp [hm])) _ _ _
      _ = readHeadersGo acc (cur ++ b :: t) rest := by simp

theorem readHeadersGo_frame (body rest : List Nat) :
    readHeadersGo [] []
        ((strB ("Content-Length:") ++ natDigits body.length ++ [13]) ++ (10 :: 13 :: 10 :: (body ++ rest)))
      = .ok ([(strB ("content-length"), natDigits body.length)], body ++ rest) := by
  have hdig := natDigits_mem body.length
  have hC : (10 : Nat) ∉ strB ("Content-Length:") := by decide
  have hl1 : (10 : Nat) ∉ strB ("Content-Length:") ++ natDigits body.length ++ [13] := by
    intro hm
    rcases List.mem_append.1 hm with hm1 | hm2
    · rcases List.mem_append.1 hm1 with hm3 | hm4
      · exact hC hm3
      · have := hdig 10 hm4; omega
    · simp at hm2
  rw [readHeadersGo_consume hl1]
  have hcons : (strB ("Content-Length:") ++ natDigits body.length ++ [13]) ++ [10]
      = 67 :: (strB ("ontent-Length:") ++ natDigits body.length ++ [13, 10]) := by
    rw [show strB ("Content-Length:") = 67 :: strB ("ontent-Length:") from by decide]
    simp
  have hblank : trimRightB (([] ++ (strB ("Content-Length:") ++ natDigits body.length ++ [13])) ++ [10]) ≠ [] := by
    rw [List.nil_append, hcons]
    exact trimRightB_cons_ne_nil (by decide) _
  have hline2 : (([] : List Nat) ++ (strB ("Content-Length:") ++ natDigits body.length ++ [13])) ++ [10]
      = strB ("Content-Length") ++ 58 :: (natDigits body.length ++ [13, 10]) := by
    rw [show strB ("Content-Length:") = strB ("Content-Length") ++ [58] from by decide]
    simp
  have hstep : headerLineStep []
        ((([] : List Nat) ++ (strB ("Content-Length:") ++ natDigits body.length ++ [13])) ++ [10])
      = .ok [(strB ("content-length"), natDigits body.length)] := by
    unfold headerLineStep
    rw [hline2, splitOnceB_append (by decide)]
    show Except.ok (insertAL (toLowerB (trimB (strB ("Content-Length"))))
          (trimB (natDigits body.length ++ [13, 10])) ([] : List (List Nat × List Nat))) = _
    rw [show toLowerB (trimB (strB ("Content-Length"))) = strB ("content-length") from by decide,
        trimB_append_crlf (digits_no_ws hdig)]
    rfl
  unfold readHeadersGo
  rw [if_pos rfl, if_neg hblank, hstep]
  unfold readHeadersGo
  rw [if_neg (by decide : ¬ (13 : Nat) = 10)]
  unfold readHeadersGo
  rw [if_pos rfl, if_pos (by decide)]

theorem readFrame_frame (body rest : List Nat) :
    readFrame ((strB ("Content-Length:") ++ natDigits body.length ++ [13, 10, 13, 10] ++ body) ++ rest)
      = .ok ([(strB ("content-length"), natDigits body.length)], body, rest) := by
  have hassoc : (strB ("Content-Length:") ++ natDigits body.length ++ [13, 10, 13, 10] ++ body) ++ rest
      = (strB ("Content-Length:") ++ natDigits body.length ++ [13]) ++ (10 :: 13 :: 10 :: (body ++ rest)) := by
    simp
  have hlk : lookupAL (strB ("content-length")) [(strB ("content-length"), natDigits body.length)]
      = some (natDigits body.length) := by simp [lookupAL]
  have hre : readExact body.length (body ++ rest) = some (body, rest) := by
    unfold readExact
    rw [if_pos (by simp), List.take_left, List.drop_left]
  unfold readFrame
  rw [hassoc, readHeadersGo_frame body rest]
  simp only [hlk, parseUsize_natDigits, hre]

theorem readHeadersGo_nil (acc : List (List Nat × List Nat)) (cur : List Nat) :
    readHeadersGo acc cur []
      = if trimRightB cur = [] then .ok (acc, [])
        else
          match headerLineStep acc cur with
          | .ok acc2 => .ok (acc2, [])
          | .error e => .error e := rfl

theorem readHeadersGo_newline (acc : List (List Nat × List Nat)) (cur rest : List Nat) :
    readHeadersGo acc cur (10 :: rest)
      = if trimRightB (cur ++ [10]) = [] then .ok (acc, rest)
        else
          match headerLineStep acc (cur ++ [10]) with
          | .ok acc2 => readHeadersGo acc2 [] rest
          | .error e => .error e := by
  rw [readHeadersGo.eq_def]
  simp

theorem readHeadersGo_other (acc : List (List Nat × List Nat)) (cur : List Nat)
    {b : Nat} (hb : ¬ b = 10) (rest : List Nat) :
    readHeadersGo acc cur (b :: rest) = readHeadersGo acc (cur ++ [b]) rest := by
  rw [readHeadersGo.eq_def]
  simp [hb]

theorem specMalformed_nil (cur : List Nat) :
    specHasMalformedHeader cur []
      = if trimRightB cur = [] then false else decide (¬ 58 ∈ cur) := rfl

theorem specMalformed_newline (cur rest : List Nat) :
    specHasMalformedHeader cur (10 :: rest)
      = if trimRightB (cur ++ [10]) = [] then false
        else if 58 ∈ cur ++ [10] then specHasMalformedHeader [] rest
        else true := by
  rw [specHasMalformedHeader.eq_def]
  simp

theorem specMalformed_other (cur : List Nat) {b : Nat} (hb : ¬ b = 10) (rest : List Nat) :
    specHasMalformedHeader cur (b :: rest) = specHasMalformedHeader (cur ++ [b]) rest := by
  rw [specHasMalformedHeader.eq_def]
  simp [hb]

theorem headerLineStep_err {acc : List (List Nat × List Nat)} {line : List Nat} {e : Error}
    (h : headerLineStep acc line = .error e) : e = invalidHeaderMsg line := by
  unfold headerLineStep at h
  cases hs : splitOnceB 58 line with
  | none => rw [hs] at h; cases h; rfl
  | some p =>
    obtain ⟨k, v⟩ := p
    rw [hs] at h
    cases h

theorem headerLineStep_isErr {acc : List (List Nat × List Nat)} {line : List Nat} :
    (∃ e, headerLineStep acc line = .error e) ↔ splitOnceB 58 line = none := by
  unfold headerLineStep
  cases hs : splitOnceB 58 line with
  | none => simp
  | some p =>
    obtain ⟨k, v⟩ := p
    simp

theorem readHeadersGo_err_shape : ∀ (input : List Nat) (acc : List (List Nat × List Nat))
    (cur : List Nat) (e : Error),
    readHeadersGo acc cur input = .error e → ∃ l, e = invalidHeaderMsg l := by
  intro input
  induction input with
  | nil =>
    intro acc cur e h
    rw [readHeadersGo_nil] at h
    split at h
    · cases h
    · cases hs : headerLineStep acc cur with
      | ok acc2 => rw [hs] at h; cases h
      | error e2 => rw [hs] at h; cases h; exact ⟨cur, headerLineStep_err hs⟩
  | cons b rest ih =>
    intro acc cur e h
    by_cases hb : b = 10
    · subst hb
      rw [readHeadersGo_newline] at h
      split at h
      · cases h
      · cases hs : headerLineStep acc (cur ++ [10]) with
        | ok acc2 => rw [hs] at h; exact ih acc2 [] e h
        | error e2 => rw [hs] at h; cases h; exact ⟨cur ++ [10], headerLineStep_err hs⟩
    · rw [readHeadersGo_other acc cur hb] at h
      exact ih acc (cur ++ [b]) e h

theorem readHeadersGo_malformed_iff : ∀ (input : List Nat)
    (acc : List (List Nat × List Nat)) (cur : List Nat),
    (∃ e, readHeadersGo acc cur input = .error e)
      ↔ specHasMalformedHeader cur input = true := by
  intro input
  induction input with
  | nil =>
    intro acc cur
    rw [readHeadersGo_nil, specMalformed_nil]
    split
    · simp
    · rw [decide_eq_true_iff]
      constructor
      · rintro ⟨e, he⟩
        have herr : ∃ e2, headerLineStep acc cur = .error e2 := by
          cases hs : headerLineStep acc cur with
          | ok acc2 => rw [hs] at he; cases he
          | error e2 => exact ⟨e2, rfl⟩
        exact splitOnceB_eq_none_iff.1 (headerLineStep_isErr.1 herr)
      · intro hmem
        obtain ⟨e, he⟩ := headerLineStep_isErr.2 (splitOnceB_eq_none_iff.2 hmem)
        exact ⟨e, by rw [he]⟩
  | cons b rest ih =>
    intro acc cur
    by_cases hb : b = 10
    · subst hb
      rw [readHeadersGo_newline, specMalformed_newline]
      split
      · simp
      · by_cases hcol : 58 ∈ cur ++ [10]
        · rw [if_pos hcol]
          cases hs : headerLineStep acc (cur ++ [10]) with
          | ok acc2 => exact ih acc2 []
          | error e2 =>
            exfalso
            have := headerLineStep_isErr.1 ⟨e2, hs⟩
            exact (splitOnceB_eq_none_iff.1 this) hcol
        · rw [if_neg hcol]
          obtain ⟨e, he⟩ := headerLineStep_isErr.2 (splitOnceB_eq_none_iff.2 hcol)
          rw [he]
          simp
    · rw [readHeadersGo_other acc cur hb, specMalformed_other cur hb]
      exact ih acc (cur ++ [b])

/-!  ## Lemmas about the shared request counter -/

theorem runSends_cons (c : Nat) (ok : Bool) (rest : List Bool) :
    runSends c (ok :: rest)
      = ((c, ok) :: (runSends ((c + 1) % 4294967296) rest).1,
         (runSends ((c + 1) % 4294967296) rest).2) := rfl

theorem sendIds_nil (c : Nat) : sendIds c [] = [] := rfl

theorem sendIds_cons (c : Nat) (ok : Bool) (rest : List Bool) :
    sendIds c (ok :: rest) = c :: sendIds ((c + 1) % 4294967296) rest := by
  unfold sendIds
  rw [runSends_cons]
  rfl

theorem sendIds_eq (outs : List Bool) : ∀ c, c < 4294967296 →
    sendIds c outs = (List.range outs.length).map (fun i => (c + i) % 4294967296) := by
  induction outs with
  | nil => intro c _; rfl
  | cons ok rest ih =>
    intro c hc
    have hc2 : (c + 1) % 4294967296 < 4294967296 := Nat.mod_lt _ (by omega)
    rw [sendIds_cons, ih _ hc2, List.length_cons, List.range_succ_eq_map,
        List.map_cons, List.map_map]
    congr 1
    · rw [Nat.add_zero, Nat.mod_eq_of_lt hc]
    · apply List.map_congr_left
      intro i _
      show ((c + 1) % 4294967296 + i) % 4294967296 = (c + (i + 1)) % 4294967296
      rw [Nat.mod_add_mod]
      congr 1
      omega

/-!  ## Further helper lemmas for the facade -/

theorem lookupAL_cons_eq {κ α : Type} [DecidableEq κ] (k : κ) (v : α)
    (rest : List (κ × α)) : lookupAL k ((k, v) :: rest) = some v := by
  simp [lookupAL]

theorem lookupAL_cons_ne {κ α : Type} [DecidableEq κ] {k k2 : κ} (h : ¬ k2 = k)
    (v : α) (rest : List (κ × α)) :
    lookupAL k ((k2, v) :: rest) = lookupAL k rest := by
  simp [lookupAL, h]

theorem runnerResponse_id {tbl : List (Nat × Response)} {incoming : List Response}
    {r : Nat} {resp : Response} {tbl2 : List (Nat × Response)} {rest : List Response}
    (hinv : tableInv tbl)
    (h : runnerResponse tbl incoming r = .ok (resp, tbl2, rest)) : resp.id = r := by
  induction incoming generalizing tbl with
  | nil => cases h
  | cons m tail ih =>
    have hinv2 : tableInv (insertAL m.id m tbl) := tableInv_insert hinv m
    unfold runnerResponse at h
    cases hrem : removeAL r (insertAL m.id m tbl) with
    | some p =>
      obtain ⟨found, tbl3⟩ := p
      rw [hrem] at h
      cases h
      exact hinv2 r resp (removeAL_lookupAL hrem)
    | none =>
      rw [hrem] at h
      exact ih hinv2 h

theorem LSP_init_eq (ws : List Nat) (st : LSPState) :
    LSP.init ws st
      = match runnerResponse st.table st.incoming st.counter with
        | .ok (_resp, tbl2, inc2) =>
          .ok (afterSend st (strB ("initialize")) (initParamsJson ws) tbl2 inc2)
        | .error e => .error e := by
  cases hr : runnerResponse st.table st.incoming st.counter with
  | ok p =>
    obtain ⟨resp, tbl2, inc2⟩ := p
    simp [LSP.init, lspSend, lspResponse, next_request_id, hr, afterSend]
  | error e =>
    simp [LSP.init, lspSend, lspResponse, next_request_id, hr]

theorem readerRun_err {input : List Nat} {err : Error}
    (h : read_response input = .error err) : readerRun input = ([], err) := by
  simp [readerRun, readerRunF, h]

theorem isInvalidHeaderErr_invalidMsg (l : List Nat) :
    isInvalidHeaderErr (invalidHeaderMsg l) = true := by
  have htake : (strB ("Invalid header ") ++ [34] ++ l ++ [34]).take 15
      = strB ("Invalid header ") := by
    have hassoc : strB ("Invalid header ") ++ [34] ++ l ++ [34]
        = strB ("Invalid header ") ++ ([34] ++ l ++ [34]) := by simp
    rw [hassoc]
    exact List.take_left' (by decide)
  simp only [isInvalidHeaderErr, invalidHeaderMsg]
  rw [decide_eq_true_iff]
  exact htake

theorem responseFromJson_missing_result {fields : List (List Nat × Json)}
    {s : List Nat} {i : Nat}
    (hj : lookupAL (strB ("jsonrpc")) fields = some (Json.str s))
    (hi : lookupAL (strB ("id")) fields = some (Json.num i))
    (hlt : i < 4294967296)
    (hres : lookupAL (strB ("result")) fields = none) :
    responseFromJson (Json.obj fields)
      = .error (.SerializationError (strB ("missing field result"))) := by
  have hstep : responseFromJson (Json.obj fields)
      = ((match lookupAL (strB ("id")) fields with
          | some (.num i2) =>
            if i2 < 4294967296 then
              match lookupAL (strB ("result")) fields with
              | some res =>
                Except.ok { headers := [], version := s, id := i2, result := res }
              | none => Except.error (.SerializationError (strB ("missing field result")))
            else Except.error (.SerializationError (strB ("invalid value for field id")))
          | _ => Except.error (.SerializationError (strB ("invalid type or missing field id"))))
         : Except Error Response) := by
    show ((match lookupAL (strB ("jsonrpc")) fields with
           | some (Json.str v) =>
             match lookupAL (strB ("id")) fields with
             | some (Json.num i2) =>
               if i2 < 4294967296 then
                 match lookupAL (strB ("result")) fields with
                 | some res =>
                   Except.ok { headers := [], version := v, id := i2, result := res }
                 | none => Except.error (.SerializationError (strB ("missing field result")))
               else Except.error (.SerializationError (strB ("invalid value for field id")))
             | _ => Except.error (.SerializationError (strB ("invalid type or missing field id")))
           | _ => Except.error (.SerializationError (strB ("invalid type or missing field jsonrpc"))))
          : Except Error Response) = _
    rw [hj]
  rw [hstep, hi]
  show ((if i < 4294967296 then
           match lookupAL (strB ("result")) fields with
           | some res => Except.ok { headers := [], version := s, id := i, result := res }
           | none => Except.error (.SerializationError (strB ("missing field result")))
         else Except.error (.SerializationError (strB ("invalid value for field id"))))
        : Except Error Response) = _
  rw [if_pos hlt, hres]

/-!  ## Claim theorems -/

/-- C1 counterexample: the frame for request id 0 was already published
into the correlation table before `response(0)` is called, yet with the
channel closed and no further message, `response(0)` returns the
receiver-closed error instead of the retained frame — the loop awaits a
channel message before it ever consults the table, so the claim's
"returns that retained frame rather than blocking" fails. -/
theorem C1_counterexample :
    lookupAL 0 [(0, Response.mk [] (strB ("2.0")) 0 Json.null)]
        = some (Response.mk [] (strB ("2.0")) 0 Json.null)
    ∧ runnerResponse [(0, Response.mk [] (strB ("2.0")) 0 Json.null)] [] 0
        = .error (.LSPError (strB ("reciever closed"))) :=
  ⟨rfl, rfl⟩

/-- C1 (amended): `response(r)` returns the frame whose id equals `r`
regardless of the order in which responses arrive, provided the frame for
`r` is among the responses still to be received, or it is already in the
correlation table and at least one further response arrives (the loop
checks the table only after each receive); if the channel closes first, a
retained frame is not returned and the call errors instead. -/
theorem C1_theorem {tbl : List (Nat × Response)} {incoming : List Response}
    {r : Nat} (hinv : tableInv tbl)
    (h : (r ∈ keysAL tbl ∧ incoming ≠ []) ∨ r ∈ incoming.map Response.id) :
    ∃ resp tbl2 rest, runnerResponse tbl incoming r = .ok (resp, tbl2, rest)
      ∧ resp.id = r :=
  runnerResponse_found hinv h

/-- C1 witness: a table retaining the frame for id 1 and one further
arriving response; `response(1)` claims the retained frame. -/
theorem C1_witness :
    ∃ resp tbl2 rest,
      runnerResponse [(1, Response.mk [] (strB ("2.0")) 1 Json.null)]
          [Response.mk [] (strB ("2.0")) 2 Json.null] 1 = .ok (resp, tbl2, rest)
        ∧ resp.id = 1 :=
  C1_theorem
    (by
      intro k v hv
      simp [lookupAL] at hv
      obtain ⟨hk, hvv⟩ := hv
      subst hk
      rw [← hvv])
    (Or.inl ⟨by simp [keysAL], by simp⟩)

/-- C2: when the read stream ends (or any decode error stops the reader
loop, which then drops the channel's send side), every pending and every
future `response(r)` call for an id that was never answered — neither in
the correlation table nor among the frames published before the loop
ended — returns the terminal receiver-closed error; being a total
function of the state, each call observes exactly one outcome, so no
waiter blocks forever or sees two errors. -/
theorem C2_theorem (input : List Nat) (tbl : List (Nat × Response)) (r : Nat)
    (htbl : r ∉ keysAL tbl) (hpub : r ∉ (readerRun input).1.map Response.id) :
    runnerResponse tbl (readerRun input).1 r
      = .error (.LSPError (strB ("reciever closed"))) :=
  runnerResponse_not_found htbl hpub

/-- C2 witness: an immediately-ending stream and a waiter for id 0. -/
theorem C2_witness :
    runnerResponse [] (readerRun []).1 0
      = .error (.LSPError (strB ("reciever closed"))) :=
  C2_theorem [] [] 0 (by simp [keysAL]) (by decide)

/-- C3 counterexample: the claim's frame has a space after the colon
(`Content-Length: <n>`), but `send` writes `Content-Length:<n>` with no
space. -/
theorem C3_counterexample :
    wireFrame (Request.mk 0 (strB ("m")) (Json.obj []))
      ≠ specEncode (Request.mk 0 (strB ("m")) (Json.obj [])) := by
  decide

/-- C3 (amended): `send` encodes a request as exactly
`Content-Length:<n>\r\n\r\n<json-body>` — no space after the colon —
where `n` is the exact byte length of the UTF-8 JSON body (its decimal
digits parse back to the body's length), and the body is the JSON object
with exactly the keys `jsonrpc` (value "2.0"), `id`, `method` and
`params`, in that order. -/
theorem C3_theorem (rid : Nat) (method : List Nat) (params : Json) :
    wireFrame (Request.mk rid method params)
        = strB ("Content-Length:")
          ++ natDigits (Request.body (Request.mk rid method params)).length
          ++ [13, 10, 13, 10] ++ Request.body (Request.mk rid method params)
    ∧ parseUsize (natDigits (Request.body (Request.mk rid method params)).length)
        = some (Request.body (Request.mk rid method params)).length
    ∧ Request.body (Request.mk rid method params)
        = sJson (Json.obj [(strB ("jsonrpc"), Json.str (strB ("2.0"))),
                           (strB ("id"), Json.num rid),
                           (strB ("method"), Json.str method),
                           (strB ("params"), params)]) :=
  ⟨rfl, parseUsize_natDigits _, rfl⟩

/-- C4 counterexample: a header block whose `content-length` value is not
numeric.  No non-blank line lacks a colon (so no MalformedHeader), the
`content-length` header is present (so no MissingContentLength), yet the
decoder does not read a body: it fails with a `ParseIntError`.  The
claim's "otherwise reads exactly content-length bytes" is therefore
false. -/
theorem C4_counterexample :
    readFrame (strB ("content-length:abc") ++ [13, 10, 13, 10] ++ strB ("xxxx"))
        = .error (.ParseIntError (strB ("abc")))
    ∧ specHasMalformedHeader [] (strB ("content-length:abc") ++ [13, 10, 13, 10] ++ strB ("xxxx"))
        = false
    ∧ readFrame (strB ("content-length:abc") ++ [13, 10, 13, 10] ++ strB ("xxxx"))
        ≠ .error (.LSPError (strB ("missing required header Content-Length"))) := by
  have h1 : readFrame (strB ("content-length:abc") ++ [13, 10, 13, 10] ++ strB ("xxxx"))
      = .error (.ParseIntError (strB ("abc"))) := rfl
  refine ⟨h1, by decide, ?_⟩
  intro hcontra
  rw [h1] at hcontra
  cases hcontra

/-- C4 (amended): decode reads header lines until a blank line, splitting
each on the first colon into a trimmed lowercased key and a trimmed value;
it fails with the malformed-header error if and only if a non-blank header
line before the blank line contains no colon; given the header loop
succeeds, a missing `content-length` key is the missing-header error, a
non-numeric `content-length` value is a `ParseIntError`, and otherwise —
when the value parses and the stream holds that many bytes — exactly
`content-length` bytes are read as the body. -/
theorem C4_theorem (input : List Nat) :
    ((∃ e, readFrame input = .error e ∧ isInvalidHeaderErr e = true)
        ↔ specHasMalformedHeader [] input = true)
    ∧ ∀ hdrs rest, readHeadersGo [] [] input = .ok (hdrs, rest) →
        (lookupAL (strB ("content-length")) hdrs = none →
          readFrame input = .error (.LSPError (strB ("missing required header Content-Length"))))
        ∧ ∀ v, lookupAL (strB ("content-length")) hdrs = some v →
            (parseUsize v = none → readFrame input = .error (.ParseIntError v))
            ∧ ∀ n, parseUsize v = some n → n ≤ rest.length →
                readFrame input = .ok (hdrs, rest.take n, rest.drop n) := by
  constructor
  · constructor
    · rintro ⟨e, he, hinv⟩
      rw [← readHeadersGo_malformed_iff input [] []]
      cases hh : readHeadersGo [] [] input with
      | error e2 => exact ⟨e2, rfl⟩
      | ok p =>
        obtain ⟨hdrs, rest⟩ := p
        have h1 : readFrame input
            = (match lookupAL (strB ("content-length")) hdrs with
               | none => .error (.LSPError (strB ("missing required header Content-Length")))
               | some lenStr =>
                 match parseUsize lenStr with
                 | none => .error (.ParseIntError lenStr)
                 | some len =>
                   match readExact len rest with
                   | none => .error (.IOError (strB ("failed to fill whole buffer")))
                   | some (body, rest2) => .ok (hdrs, body, rest2)) := by
          unfold readFrame
          rw [hh]
        rw [h1] at he
        exfalso
        cases hlk : lookupAL (strB ("content-length")) hdrs with
        | none =>
          rw [hlk] at he
          cases he
          exact absurd hinv (by decide)
        | some v =>
          rw [hlk] at he
          have he2 : (match parseUsize v with
              | none => Except.error (Error.ParseIntError v)
              | some len =>
                match readExact len rest with
                | none => Except.error (Error.IOError (strB ("failed to fill whole buffer")))
                | some (body, rest2) => Except.ok (hdrs, body, rest2)) = Except.error e := he
          cases hpu : parseUsize v with
          | none =>
            rw [hpu] at he2
            cases he2
            exact absurd hinv (by simp [isInvalidHeaderErr])
          | some n =>
            rw [hpu] at he2
            have he3 : (match readExact n rest with
                | none => Except.error (Error.IOError (strB ("failed to fill whole buffer")))
                | some (body, rest2) => Except.ok (hdrs, body, rest2)) = Except.error e := he2
            cases hre : readExact n rest with
            | none =>
              rw [hre] at he3
              cases he3
              exact absurd hinv (by simp [isInvalidHeaderErr])
            | some q =>
              obtain ⟨body, rest2⟩ := q
              rw [hre] at he3
              cases he3
    · intro hspec
      obtain ⟨e, he⟩ := (readHeadersGo_malformed_iff input [] []).2 hspec
      obtain ⟨l, hl⟩ := readHeadersGo_err_shape input [] [] e he
      refine ⟨e, ?_, ?_⟩
      · unfold readFrame
        rw [he]
      · subst hl
        exact isInvalidHeaderErr_invalidMsg l
  · intro hdrs rest hok
    have h1 : readFrame input
        = (match lookupAL (strB ("content-length")) hdrs with
           | none => .error (.LSPError (strB ("missing required header Content-Length")))
           | some lenStr =>
             match parseUsize lenStr with
             | none => .error (.ParseIntError lenStr)
             | some len =>
               match readExact len rest with
               | none => .error (.IOError (strB ("failed to fill whole buffer")))
               | some (body, rest2) => .ok (hdrs, body, rest2)) := by
      unfold readFrame
      rw [hok]
    constructor
    · intro hnone
      rw [h1, hnone]
    · intro v hv
      constructor
      · intro hpu
        rw [h1, hv]
        show (match parseUsize v with
              | none => Except.error (Error.ParseIntError v)
              | some len =>
                match readExact len rest with
                | none => Except.error (Error.IOError (strB ("failed to fill whole buffer")))
                | some (body, rest2) => Except.ok (hdrs, body, rest2)) = _
        rw [hpu]
      · intro n hpn hlen
        rw [h1, hv]
        show (match parseUsize v with
              | none => Except.error (Error.ParseIntError v)
              | some len =>
                match readExact len rest with
                | none => Except.error (Error.IOError (strB ("failed to fill whole buffer")))
                | some (body, rest2) => Except.ok (hdrs, body, rest2)) = _
        rw [hpn]
        show (match readExact n rest with
              | none => Except.error (Error.IOError (strB ("failed to fill whole buffer")))
              | some (body, rest2) => Except.ok (hdrs, body, rest2)) = _
        rw [show readExact n rest = some (rest.take n, rest.drop n) from by
          unfold readExact
          rw [if_pos hlen]]

/-- C4 witness: a well-formed frame with a padded numeric value — the
header parses to key `content-length`, the trimmed value `4` parses, and
exactly four body bytes are read, leaving the tail. -/
theorem C4_witness :
    readFrame (strB ("content-length: 4") ++ [13, 10, 13, 10] ++ strB ("BODYTAIL"))
      = .ok ([(strB ("content-length"), strB ("4"))], strB ("BODY"), strB ("TAIL")) := by
  have h := ((C4_theorem (strB ("content-length: 4") ++ [13, 10, 13, 10] ++ strB ("BODYTAIL"))).2
      [(strB ("content-length"), strB ("4"))] (strB ("BODYTAIL")) (by decide)).2
      (strB ("4")) (by decide) |>.2 4 (by decide) (by decide)
  exact h.trans (by decide)

/-- C5 counterexample: `fetch_add` on an `AtomicU32` wraps modulo 2 ^ 32,
so in a long enough sequence of sends from the fixed origin 0 the ids are
not pairwise distinct: the first send and the 2 ^ 32 + 1-st send are both
assigned id 0. -/
theorem C5_counterexample :
    (sendIds 0 (List.replicate (4294967296 + 1) true))[0]? = some 0
    ∧ (sendIds 0 (List.replicate (4294967296 + 1) true))[4294967296]? = some 0 := by
  have h := sendIds_eq (List.replicate (4294967296 + 1) true) 0 (by omega)
  rw [List.length_replicate] at h
  constructor
  · rw [h, List.getElem?_map, List.getElem?_range (by omega)]
    simp
  · rw [h, List.getElem?_map, List.getElem?_range (by omega)]
    simp

/-- C5 (amended): each send obtains its id by an atomic fetch-and-increment
of the shared counter, so for any sequence of at most 2 ^ 32 sends from the
fixed origin 0 the assigned ids are exactly 0, 1, 2, … — pairwise distinct
and strictly increasing; the ids written to the wire (those of the
successful sends) are never repeated; and the assigned ids depend only on
the number of prior sends, not on which of them failed, so an id consumed
by a failing send is never reassigned.  Beyond 2 ^ 32 sends the `AtomicU32`
counter wraps and ids repeat. -/
theorem C5_theorem (outs : List Bool) (hlen : outs.length ≤ 4294967296) :
    sendIds 0 outs = List.range outs.length
    ∧ (sendIds 0 outs).Pairwise (· < ·)
    ∧ (wireIds 0 outs).Nodup
    ∧ ∀ outs2 : List Bool, outs2.length = outs.length → sendIds 0 outs2 = sendIds 0 outs := by
  have hM : (0 : Nat) < 4294967296 := by omega
  have hid : sendIds 0 outs = List.range outs.length := by
    rw [sendIds_eq outs 0 hM]
    have hcg : ∀ i ∈ List.range outs.length, (0 + i) % 4294967296 = i := by
      intro i hi
      rw [List.mem_range] at hi
      rw [Nat.zero_add, Nat.mod_eq_of_lt (lt_of_lt_of_le hi hlen)]
    rw [List.map_congr_left hcg, List.map_id']
  refine ⟨hid, ?_, ?_, ?_⟩
  · rw [hid]
    exact List.pairwise_lt_range _
  · have hsub : List.Sublist (wireIds 0 outs) (sendIds 0 outs) :=
      List.Sublist.map Prod.fst (List.filter_sublist (runSends 0 outs).1)
    have hnd : (sendIds 0 outs).Nodup := by
      rw [hid]
      exact List.nodup_range _
    exact hsub.nodup hnd
  · intro outs2 h2
    rw [sendIds_eq outs2 0 hM, sendIds_eq outs 0 hM, h2]

/-- C5 witness: three sends, the second failing — ids 0, 1, 2 assigned in
order, only 0 and 2 on the wire, and any other outcome pattern of the same
length gets the same ids. -/
theorem C5_witness :
    sendIds 0 [true, false, true] = List.range [true, false, true].length
    ∧ (sendIds 0 [true, false, true]).Pairwise (· < ·)
    ∧ (wireIds 0 [true, false, true]).Nodup
    ∧ ∀ outs2 : List Bool, outs2.length = [true, false, true].length →
        sendIds 0 outs2 = sendIds 0 [true, false, true] :=
  C5_theorem [true, false, true] (by norm_num)

/-- C6 counterexample: encoding a request and decoding the resulting byte
stream with the Reader's decode (`read_response`) does not yield the
request back — `Response::new` requires a `result` member, which a request
body does not have, so the round trip fails with a missing-field error. -/
theorem C6_counterexample :
    read_response (wireFrame (Request.mk 0 (strB ("m")) (Json.obj [])))
      = .error (.SerializationError (strB ("missing field result"))) := rfl

/-- C6 (amended): the framing layer does round-trip — decoding the encoded
request yields a header map with `content-length` equal to the body's byte
length and exactly the original JSON body bytes, with any following bytes
untouched — but parsing that body as a `Response` frame fails, since a
request carries `method` and `params` and no `result` member. -/
theorem C6_theorem (r : Request) (rest : List Nat) :
    readFrame (wireFrame r ++ rest)
        = .ok ([(strB ("content-length"), natDigits r.body.length)], r.body, rest)
    ∧ (r.id < 4294967296 →
        responseFromJson r.toJson
          = .error (.SerializationError (strB ("missing field result")))) := by
  constructor
  · exact readFrame_frame r.body rest
  · intro hid
    show responseFromJson (Json.obj [(strB ("jsonrpc"), Json.str (strB ("2.0"))),
        (strB ("id"), Json.num r.id),
        (strB ("method"), Json.str r.method),
        (strB ("params"), r.content)]) = _
    apply responseFromJson_missing_result (s := strB ("2.0")) (i := r.id)
    · rw [lookupAL_cons_eq]
    · rw [lookupAL_cons_ne (by decide), lookupAL_cons_eq]
    · exact hid
    · rw [lookupAL_cons_ne (by decide), lookupAL_cons_ne (by decide),
          lookupAL_cons_ne (by decide), lookupAL_cons_ne (by decide)]
      rfl

/-- C6 witness: a concrete request — its frame decodes back to its body
bytes, and the body does not parse as a response. -/
theorem C6_witness :
    readFrame (wireFrame (Request.mk 3 (strB ("m")) Json.null) ++ strB ("X"))
        = .ok ([(strB ("content-length"),
                 natDigits (Request.body (Request.mk 3 (strB ("m")) Json.null)).length)],
               Request.body (Request.mk 3 (strB ("m")) Json.null), strB ("X"))
    ∧ responseFromJson (Request.toJson (Request.mk 3 (strB ("m")) Json.null))
        = .error (.SerializationError (strB ("missing field result"))) :=
  ⟨(C6_theorem (Request.mk 3 (strB ("m")) Json.null) (strB ("X"))).1,
   (C6_theorem (Request.mk 3 (strB ("m")) Json.null) (strB ("X"))).2 (by norm_num)⟩

/-- C7: `init` builds a single initialize request carrying the workspace
root both as the legacy path string (`rootPath`) and as a URI (`rootUri`),
each being `file://` plus the root; it sends it through the same
`lspSend`/`lspResponse` primitive every other operation uses (one frame
appended to the wire, the id taken from the shared counter) and blocks on
the response whose id matches the assigned id: under the table invariant,
any claimed response carries exactly that id. -/
theorem C7_theorem (ws : List Nat) (st : LSPState) (hinv : tableInv st.table) :
    (LSP.init ws st
      = match runnerResponse st.table st.incoming st.counter with
        | .ok (_resp, tbl2, inc2) =>
          .ok (afterSend st (strB ("initialize")) (initParamsJson ws) tbl2 inc2)
        | .error e => .error e)
    ∧ (∃ fields, initParamsJson ws = Json.obj fields
        ∧ lookupAL (strB ("rootPath")) fields = some (Json.str (strB ("file://") ++ ws))
        ∧ lookupAL (strB ("rootUri")) fields = some (Json.str (strB ("file://") ++ ws)))
    ∧ ∀ resp tbl2 inc2,
        runnerResponse st.table st.incoming st.counter = .ok (resp, tbl2, inc2) →
        resp.id = st.counter := by
  refine ⟨LSP_init_eq ws st, ⟨_, rfl, ?_, ?_⟩, ?_⟩
  · rw [lookupAL_cons_ne (by decide), lookupAL_cons_eq]
  · rw [lookupAL_cons_ne (by decide), lookupAL_cons_ne (by decide), lookupAL_cons_eq]
  · intro resp tbl2 inc2 h
    exact runnerResponse_id hinv h

/-- C7 witness: a fresh runner whose channel delivers the response with
id 0 — `init` succeeds and leaves exactly the initialize frame on the
wire. -/
theorem C7_witness :
    LSP.init (strB ("/w")) sampleState
      = .ok (afterSend sampleState (strB ("initialize")) (initParamsJson (strB ("/w"))) [] []) := by
  have h := (C7_theorem (strB ("/w")) sampleState
      (by intro k v hv; simp [sampleState, lookupAL] at hv)).1
  exact h.trans (by rfl)

/-- C8: `goto_defintion` builds one navigation request whose params carry
the document identifier (the path as a `file://` URI) and the given
zero-based position, sends it through the shared writer, awaits the
response with the assigned id, and deserializes the raw result as the
three-shape untagged `GotoDefinitionResponse`; the consumer collects one
URI from a scalar, each location's URI from a list, and nothing from the
link shape. -/
theorem C8_theorem (path : List Nat) (line character : Nat) (st : LSPState) :
    (LSP.goto_defintion path line character st
      = match runnerResponse st.table st.incoming st.counter with
        | .ok (resp, tbl2, inc2) =>
          (match decodeGotoDef resp.result with
           | .ok g => .ok (g, afterSend st (strB ("textDocument/definition"))
                              (gotoDefParamsJson path line character) tbl2 inc2)
           | .error e => .error e)
        | .error e => .error e)
    ∧ (∃ fields, gotoDefParamsJson path line character = Json.obj fields
        ∧ lookupAL (strB ("textDocument")) fields
            = some (Json.obj [(strB ("uri"), Json.str (strB ("file://") ++ path))])
        ∧ lookupAL (strB ("position")) fields
            = some (Json.obj [(strB ("line"), Json.num line),
                              (strB ("character"), Json.num character)]))
    ∧ (∀ l, favoritesLocations (.Scalar l) = [l.uri])
    ∧ (∀ ls, favoritesLocations (.Array ls) = ls.map Location.uri)
    ∧ (∀ links, favoritesLocations (.Link links) = [])
    ∧ decodeGotoDef (Json.obj [(strB ("uri"), Json.str (strB ("file:///a.md"))),
          (strB ("range"), Json.obj [(strB ("start"),
              Json.obj [(strB ("line"), Json.num 1), (strB ("character"), Json.num 2)]),
            (strB ("end"),
              Json.obj [(strB ("line"), Json.num 1), (strB ("character"), Json.num 5)])])])
        = .ok (.Scalar { uri := strB ("file:///a.md"),
                         range := { start := { line := 1, character := 2 },
                                    endPos := { line := 1, character := 5 } } })
    ∧ decodeGotoDef (Json.arr [Json.obj [(strB ("uri"), Json.str (strB ("file:///a.md"))),
          (strB ("range"), Json.obj [(strB ("start"),
              Json.obj [(strB ("line"), Json.num 1), (strB ("character"), Json.num 2)]),
            (strB ("end"),
              Json.obj [(strB ("line"), Json.num 1), (strB ("character"), Json.num 5)])])]])
        = .ok (.Array [{ uri := strB ("file:///a.md"),
                         range := { start := { line := 1, character := 2 },
                                    endPos := { line := 1, character := 5 } } }])
    ∧ decodeGotoDef (Json.arr [Json.obj [(strB ("targetUri"), Json.str (strB ("file:///a.md"))),
          (strB ("targetRange"), Json.obj [(strB ("start"),
              Json.obj [(strB ("line"), Json.num 0), (strB ("character"), Json.num 0)]),
            (strB ("end"),
              Json.obj [(strB ("line"), Json.num 0), (strB ("character"), Json.num 1)])]),
          (strB ("targetSelectionRange"), Json.obj [(strB ("start"),
              Json.obj [(strB ("line"), Json.num 0), (strB ("character"), Json.num 0)]),
            (strB ("end"),
              Json.obj [(strB ("line"), Json.num 0), (strB ("character"), Json.num 1)])])]])
        = .ok (.Link [{ targetUri := strB ("file:///a.md"),
                        targetRange := { start := { line := 0, character := 0 },
                                         endPos := { line := 0, character := 1 } },
                        targetSelectionRange := { start := { line := 0, character := 0 },
                                                  endPos := { line := 0, character := 1 } } }]) := by
  refine ⟨?_, ⟨_, rfl, ?_, ?_⟩, fun l => rfl, fun ls => rfl, fun links => rfl, rfl, rfl, rfl⟩
  · cases hr : runnerResponse st.table st.incoming st.counter with
    | ok p =>
      obtain ⟨resp, tbl2, inc2⟩ := p
      cases hd : decodeGotoDef resp.result with
      | ok g =>
        simp [LSP.goto_defintion, lspSend, lspResponse, next_request_id, hr, hd, afterSend]
      | error e =>
        simp [LSP.goto_defintion, lspSend, lspResponse, next_request_id, hr, hd]
    | error e =>
      simp [LSP.goto_defintion, lspSend, lspResponse, next_request_id, hr]
  · rw [lookupAL_cons_eq]
  · rw [lookupAL_cons_ne (by decide), lookupAL_cons_eq]

/-- C9 counterexample: a well-framed JSON-RPC error reply (an `error`
member in place of `result`) is not delivered to its caller:
`read_response` on that frame fails with the missing-result decode error,
the reader loop terminates at once — a well-formed response for id 2
following in the same stream is never published — and thereafter every
waiter gets the receiver-closed error. -/
theorem C9_counterexample :
    read_response errorReplyFrame
      = .error (.SerializationError (strB ("missing field result")))
    ∧ readerRun
        (errorReplyFrame
          ++ (strB ("Content-Length:")
              ++ natDigits (sJson (Json.obj [(strB ("jsonrpc"), Json.str (strB ("2.0"))),
                  (strB ("id"), Json.num 2), (strB ("result"), Json.null)])).length
              ++ [13, 10, 13, 10]
              ++ sJson (Json.obj [(strB ("jsonrpc"), Json.str (strB ("2.0"))),
                  (strB ("id"), Json.num 2), (strB ("result"), Json.null)])))
      = ([], .SerializationError (strB ("missing field result")))
    ∧ runnerResponse [] [] 2 = .error (.LSPError (strB ("reciever closed"))) := by
  refine ⟨rfl, ?_, rfl⟩
  exact readerRun_err rfl

/-- C9 (amended): a reply whose body carries an `error` member in place of
`result` fails `Response` parsing with a missing-field error, and any
well-framed byte stream whose decoded body is such an error reply makes
`read_response` fail with that error; a frame on which `read_response`
fails terminates the reader loop with that error, publishing nothing; and
once the channel is closed every waiter receives the receiver-closed
error — the error reply is never delivered to the caller that issued the
request. -/
theorem C9_theorem (i : Nat) (e : Json) (hi : i < 4294967296) :
    responseFromJson (Json.obj [(strB ("jsonrpc"), Json.str (strB ("2.0"))),
        (strB ("id"), Json.num i), (strB ("error"), e)])
      = .error (.SerializationError (strB ("missing field result")))
    ∧ (∀ (input : List Nat) hdrs (body rest : List Nat),
        readFrame input = .ok (hdrs, body, rest) →
        parseJson body = .ok (Json.obj [(strB ("jsonrpc"), Json.str (strB ("2.0"))),
            (strB ("id"), Json.num i), (strB ("error"), e)]) →
        read_response input
          = .error (.SerializationError (strB ("missing field result"))))
    ∧ (∀ (input : List Nat) (err : Error), read_response input = .error err →
        readerRun input = ([], err))
    ∧ ∀ (tbl : List (Nat × Response)) (r : Nat),
        runnerResponse tbl [] r = .error (.LSPError (strB ("reciever closed"))) := by
  have hmissing : responseFromJson (Json.obj [(strB ("jsonrpc"), Json.str (strB ("2.0"))),
      (strB ("id"), Json.num i), (strB ("error"), e)])
      = .error (.SerializationError (strB ("missing field result"))) := by
    apply responseFromJson_missing_result (s := strB ("2.0")) (i := i)
    · rw [lookupAL_cons_eq]
    · rw [lookupAL_cons_ne (by decide), lookupAL_cons_eq]
    · exact hi
    · rw [lookupAL_cons_ne (by decide), lookupAL_cons_ne (by decide),
          lookupAL_cons_ne (by decide)]
      rfl
  refine ⟨hmissing, ?_, fun input err h => readerRun_err h, fun tbl r => rfl⟩
  intro input hdrs body rest hframe hparse
  have hnew : Response.new hdrs body
      = .error (.SerializationError (strB ("missing field result"))) := by
    unfold Response.new
    rw [hparse]
    show (match responseFromJson (Json.obj [(strB ("jsonrpc"), Json.str (strB ("2.0"))),
            (strB ("id"), Json.num i), (strB ("error"), e)]) with
          | .ok resp => Except.ok { resp with headers := hdrs }
          | .error e2 => (.error e2 : Except Error Response)) = _
    rw [hmissing]
  unfold read_response
  rw [hframe]
  show (match Response.new hdrs body with
        | .ok resp => Except.ok (resp, rest)
        | .error e2 => (.error e2 : Except Error (Response × List Nat))) = _
  rw [hnew]

/-- C9 witness: the frame carrying the error reply for id 1 with an empty
error object — its headers and body decode, the body parses to the error
reply, and `read_response` on the whole frame fails with the
missing-result error. -/
theorem C9_witness :
    read_response errorReplyFrame
      = .error (.SerializationError (strB ("missing field result"))) :=
  (C9_theorem 1 (Json.obj []) (by norm_num)).2.1 errorReplyFrame
    [(strB ("content-length"), natDigits errorReplyBody.length)]
    errorReplyBody [] (by decide) rfl

/-- C10: `LSP::new` runs the initialize handshake before returning: it
behaves exactly as `init`, a returned client value implies the initialize
frame was sent and its response was claimed from the correlation loop, and
a failed handshake propagates the error instead of producing a client —
initialization-before-use holds by construction. -/
theorem C10_theorem (ws : List Nat) (st : LSPState) :
    LSP.new ws st = LSP.init ws st
    ∧ (∀ st2, LSP.new ws st = .ok st2 →
        ∃ resp tbl2 inc2,
          runnerResponse st.table st.incoming st.counter = .ok (resp, tbl2, inc2)
          ∧ st2 = afterSend st (strB ("initialize")) (initParamsJson ws) tbl2 inc2)
    ∧ ∀ err, runnerResponse st.table st.incoming st.counter = .error err →
        LSP.new ws st = .error err := by
  have hnew : LSP.new ws st = LSP.init ws st := by
    unfold LSP.new
    cases h : LSP.init ws st with
    | ok s => rfl
    | error e => rfl
  refine ⟨hnew, ?_, ?_⟩
  · intro st2 h2
    rw [hnew, LSP_init_eq] at h2
    cases hr : runnerResponse st.table st.incoming st.counter with
    | ok p =>
      obtain ⟨resp, tbl2, inc2⟩ := p
      rw [hr] at h2
      cases h2
      exact ⟨resp, tbl2, inc2, rfl, rfl⟩
    | error e =>
      rw [hr] at h2
      cases h2
  · intro err herr
    rw [hnew, LSP_init_eq, herr]

/-- C10 witness: on the sample runner the constructed client is exactly
the state after the initialize round trip. -/
theorem C10_witness :
    ∃ resp tbl2 inc2,
      runnerResponse sampleState.table sampleState.incoming sampleState.counter
        = .ok (resp, tbl2, inc2)
      ∧ afterSend sampleState (strB ("initialize")) (initParamsJson (strB ("/w"))) [] []
        = afterSend sampleState (strB ("initialize")) (initParamsJson (strB ("/w"))) tbl2 inc2 :=
  (C10_theorem (strB ("/w")) sampleState).2.1
    (afterSend sampleState (strB ("initialize")) (initParamsJson (strB ("/w"))) [] [])
    (by rfl)

end PKM
